import Mathlib

set_option autoImplicit false

namespace DerDieDas

/-- A spreadsheet cell: `none` models an empty cell (Python `None`/NaN). -/
abbrev Cell := Option String

/-- A raw grid of cells, as produced by either reading strategy. -/
abbrev Grid := List (List Cell)

/-- A (word, article) pair as produced by the loader. -/
abbrev WAPair := String × String

/-- Python `str.strip()`: drop whitespace from both ends. -/
def pyStrip (s : String) : String :=
  ⟨(((s.data.dropWhile Char.isWhitespace).reverse.dropWhile Char.isWhitespace).reverse)⟩

/-- Python `str.lower()`: lowercase every character. -/
def pyLower (s : String) : String :=
  ⟨s.data.map Char.toLower⟩

/-- `_clean` from the source: `None` becomes the empty string, any other
value is stripped of surrounding whitespace. -/
def clean (c : Cell) : String :=
  match c with
  | none => ""
  | some s => pyStrip s

/-- The set of valid articles, `valid_articles` in the source. -/
def valid_articles : List String := ["der", "die", "das"]

/-- The per-candidate filter shared by both builders: trim the word, trim
and lowercase the article, keep the pair only if the word is non-empty and
the article is one of der/die/das. -/
def candPair (w a : Cell) : Option WAPair :=
  if clean w ≠ "" ∧ valid_articles.contains (pyLower (clean a)) then
    some (clean w, pyLower (clean a))
  else none

/-- `get_col` of the fallback wrapper `_Wrapper`: cell `c` of every row,
padding with `None` when the row is shorter. -/
def get_col (g : Grid) (c : Nat) : List Cell :=
  g.map (fun row => row.getD c none)

/-- `get_row` of the fallback wrapper `_Wrapper`: row `r`, or `[]` when the
grid has fewer rows. -/
def get_row (g : Grid) (r : Nat) : List Cell :=
  g.getD r []

/-- The common `for w, a in zip(...)` loop body of both builders: zip the
word cells with the article cells and keep the valid candidates. -/
def zipPairs (ws arts : List Cell) : List WAPair :=
  (List.zip ws arts).filterMap (fun c => candPair c.1 c.2)

/-- `build_vertical_pairs`: column 0 = words, column 1 = articles. -/
def build_vertical_pairs (g : Grid) : List WAPair :=
  zipPairs (get_col g 0) (get_col g 1)

/-- `build_horizontal_pairs`: row 0 = words, row 1 = articles; empty when
the grid has fewer than 2 rows. -/
def build_horizontal_pairs (g : Grid) : List WAPair :=
  if g.length < 2 then [] else zipPairs (get_row g 0) (get_row g 1)

/-- A row is fully empty when every cell is `None` (covers both the
`len(row_vals) == 0` and the `all(v is None)` branches of the source). -/
def rowEmpty (row : List Cell) : Bool :=
  row.all (fun c => c.isNone)

/-- The fallback reader's scanning loop (`while empty_streak < 10`): walk
rows from the top, drop fully-empty rows while counting the streak, keep
non-empty rows (resetting the streak), and stop once the streak reaches 10.
Rows beyond the end of the list are empty, so the loop then accumulates
nothing further, matching the source's termination with no extra rows. -/
def scanAux : List (List Cell) → Nat → List (List Cell)
  | [], _ => []
  | row :: rest, streak =>
    if rowEmpty row then
      if 10 ≤ streak + 1 then [] else scanAux rest (streak + 1)
    else row :: scanAux rest 0

/-- The fallback reader's row accumulation, started with streak 0. -/
def scanRows (sheet : List (List Cell)) : List (List Cell) :=
  scanAux sheet 0

/-- The fallback reader's padding step: right-pad every accumulated row
with `None` up to the maximum observed column count. -/
def padGrid (rows : List (List Cell)) : Grid :=
  let maxc := rows.foldr (fun r m => max r.length m) 0
  rows.map (fun r => r ++ List.replicate (maxc - r.length) none)

/-- `true` iff the row list contains 10 consecutive fully-empty rows when
scanned with the given starting streak. -/
def hasLongBlankRun : List (List Cell) → Nat → Bool
  | [], _ => false
  | row :: rest, streak =>
    if rowEmpty row then decide (10 ≤ streak + 1) || hasLongBlankRun rest (streak + 1)
    else hasLongBlankRun rest 0

/-- The loader's failure modes: `FileNotFoundError` (with its message),
`RuntimeError` when both reading strategies fail, and the
`ValueError`/`NoValidPairsError` raised when no valid pairs are found. -/
inductive LoadError where
  | fileNotFound (msg : String)
  | readFailed
  | noValidPairs
deriving DecidableEq

/-- The orientation-selection step of `load_word_article_pairs`: forced
vertical or horizontal lists are used unconditionally; any other
orientation string (the `auto` default) picks the longer candidate list,
preferring vertical on a tie. -/
def resolveChosen (g : Grid) (orient : String) : List WAPair :=
  let v := build_vertical_pairs g
  let h := build_horizontal_pairs g
  let choice := pyLower orient
  if choice = "vertical" then v
  else if choice = "horizontal" then h
  else if h.length ≤ v.length then v else h

/-- `load_word_article_pairs`: `fileExists` models `os.path.exists`, and
`readResult` models the outcome of the pandas/openpyxl fallback chain
(`none` = both strategies raised, `some g` = the raw grid obtained). -/
def load_word_article_pairs (fileExists : Bool) (readResult : Option Grid)
    (path orient : String) : Except LoadError (List WAPair) :=
  if fileExists = false then
    Except.error (LoadError.fileNotFound ("Excel file not found: " ++ path))
  else
    match readResult with
    | none => Except.error LoadError.readFailed
    | some g =>
      let chosen := resolveChosen g orient
      if chosen.isEmpty then Except.error LoadError.noValidPairs
      else Except.ok chosen

/-- Discriminator: did the loader fail with `FileNotFoundError`? -/
def isFileNotFoundErr : Except LoadError (List WAPair) → Bool
  | Except.error (LoadError.fileNotFound _) => true
  | _ => false

/-- Discriminator: did the loader fail with `NoValidPairsError`? -/
def isNoValidPairsErr : Except LoadError (List WAPair) → Bool
  | Except.error LoadError.noValidPairs => true
  | _ => false

/-- Discriminator: did the loader succeed? -/
def loadOk : Except LoadError (List WAPair) → Bool
  | Except.ok _ => true
  | _ => false

/-- A well-formed vertical-sheet row: exactly the two columns word and
article, with a non-empty trimmed word and a valid article. -/
def wfVRow (row : List Cell) : Prop :=
  row.length = 2 ∧ clean (row.getD 0 none) ≠ "" ∧
    valid_articles.contains (pyLower (clean (row.getD 1 none))) = true

instance wfVRow_decidable (row : List Cell) : Decidable (wfVRow row) := by
  unfold wfVRow
  infer_instance

/-- The cleaned pair extracted from a vertical-sheet row. -/
def rowToPair (row : List Cell) : WAPair :=
  (clean (row.getD 0 none), pyLower (clean (row.getD 1 none)))

/-- The mutable quiz state of `DerDieDasApp`: the full pair set, the
current shuffled deck, the deck pointer `idx`, the
`waiting_for_next` flag, the running `score` and `seen` counters, and the
`(current_word, current_art)` under test. -/
structure AppState where
  pairs : List WAPair
  deck : List WAPair
  idx : Nat
  waiting_for_next : Bool
  score : Nat
  seen : Nat
  current : WAPair
deriving DecidableEq

/-- The reshuffle-on-exhaustion step at the top of
`DerDieDasApp.next_question`: when the pointer has reached the end of the
deck, shuffle the full pair set in place, copy it into a new deck and
reset the pointer. -/
def advanceDeck (shuffle : List WAPair → List WAPair) (s : AppState) : AppState :=
  if s.deck.length ≤ s.idx then
    { s with pairs := shuffle s.pairs, deck := shuffle s.pairs, idx := 0 }
  else s

/-- `DerDieDasApp.next_question`, with `random.shuffle` abstracted as a
function argument: clear the waiting flag, reshuffle the full pair set and
reset the pointer when the deck is exhausted, then index the deck
(`none` models Python's `IndexError` when the index is out of range),
advance the pointer and increment `seen`. -/
def next_question (shuffle : List WAPair → List WAPair) (s : AppState) :
    Option AppState :=
  let t := advanceDeck shuffle { s with waiting_for_next := false }
  if t.deck.length ≤ t.idx then none
  else
    some { t with current := t.deck.getD t.idx ("", ""),
                  idx := t.idx + 1, seen := t.seen + 1 }

/-- `DerDieDasApp.submit`: a no-op while waiting for acknowledgment;
otherwise a correct guess increments `score` and an incorrect guess sets
`waiting_for_next`. (The scheduled auto-advance after a correct guess is
the separate `next_question` call.) -/
def submit (guess : String) (s : AppState) : AppState :=
  if s.waiting_for_next then s
  else if guess = s.current.2 then { s with score := s.score + 1 }
  else { s with waiting_for_next := true }

/-- `DerDieDasApp.start_quiz` followed by its `next_question` call:
shuffle the pairs, copy them into a fresh deck, reset all counters and
draw the first question. -/
def start_quiz (shuffle : List WAPair → List WAPair) (s : AppState) :
    Option AppState :=
  next_question shuffle
    { s with pairs := shuffle s.pairs, deck := shuffle s.pairs, idx := 0,
             score := 0, seen := 0, waiting_for_next := false }

/-- `n` successive draws (`next_question` calls), failing if any draw
indexes out of range. -/
def drawN (shuffle : List WAPair → List WAPair) : Nat → AppState → Option AppState
  | 0, s => some s
  | n + 1, s =>
    match next_question shuffle s with
    | none => none
    | some s2 => drawN shuffle n s2

/-- Python 3 `round` on the exact rational `num / den` (`den ≠ 0`):
round half to even. -/
def pyRound (num den : Nat) : Nat :=
  if 2 * (num % den) < den then num / den
  else if den < 2 * (num % den) then num / den + 1
  else if num / den % 2 = 0 then num / den
  else num / den + 1

/-- The accuracy computed by `DerDieDasApp.update_score_label`:
`0 if seen == 0 else round(score * 100 / seen)`. -/
def accuracy (score seen : Nat) : Nat :=
  if seen = 0 then 0 else pyRound (score * 100) seen

/-- The text set by `DerDieDasApp.update_score_label`. -/
def score_label_text (score seen : Nat) : String :=
  "Score: " ++ toString score ++ " / " ++ toString seen ++
    " (" ++ toString (accuracy score seen) ++ "%)"

/-- A concrete Running quiz state (question on screen, not waiting). -/
def exRun : AppState :=
  { pairs := [("Haus", "das")], deck := [("Haus", "das")], idx := 1,
    waiting_for_next := false, score := 3, seen := 5,
    current := ("Haus", "das") }

/-- A concrete AwaitingAcknowledgment quiz state. -/
def exWait : AppState :=
  { pairs := [("Haus", "das")], deck := [("Haus", "das")], idx := 1,
    waiting_for_next := true, score := 3, seen := 5,
    current := ("Haus", "das") }

/-- A concrete freshly-started quiz state with a two-pair deck. -/
def exStart : AppState :=
  { pairs := [("Haus", "das"), ("Mann", "der")],
    deck := [("Haus", "das"), ("Mann", "der")], idx := 0,
    waiting_for_next := false, score := 0, seen := 1,
    current := ("Haus", "das") }

/-! ### Helper lemmas about the candidate filter and `zipPairs` -/

theorem contains_valid_articles (a : String) :
    valid_articles.contains a = true ↔ a = "der" ∨ a = "die" ∨ a = "das" := by
  simp [valid_articles, List.elem_iff]

theorem candPair_eq_some_iff (w a : Cell) (p : WAPair) :
    candPair w a = some p ↔
      clean w ≠ "" ∧
        (pyLower (clean a) = "der" ∨ pyLower (clean a) = "die" ∨
          pyLower (clean a) = "das") ∧
        p = (clean w, pyLower (clean a)) := by
  unfold candPair
  split_ifs with h
  · constructor
    · intro hp
      exact ⟨h.1, (contains_valid_articles _).mp h.2, (Option.some_inj.mp hp).symm⟩
    · intro hp
      exact congrArg some hp.2.2.symm
  · constructor
    · intro hp; exact absurd hp (by simp)
    · intro hp
      exact absurd ⟨hp.1, (contains_valid_articles _).mpr hp.2.1⟩ h

theorem candPair_of_valid {w a : Cell}
    (hw : clean w ≠ "") (ha : valid_articles.contains (pyLower (clean a)) = true) :
    candPair w a = some (clean w, pyLower (clean a)) := by
  unfold candPair
  rw [if_pos ⟨hw, ha⟩]

theorem candPair_none_left (a : Cell) : candPair none a = none := by
  simp [candPair, clean]

theorem candPair_none_right (w : Cell) : candPair w none = none := by
  have h : valid_articles.contains (pyLower (clean none)) = false := by decide
  simp [candPair, clean] at h ⊢
  intro hw
  simpa [clean] using h

theorem zipPairs_nil_left (arts : List Cell) : zipPairs [] arts = [] := by
  simp [zipPairs]

theorem zipPairs_nil_right (ws : List Cell) : zipPairs ws [] = [] := by
  simp [zipPairs]

theorem zipPairs_cons_some {w a : Cell} {p : WAPair} (h : candPair w a = some p)
    (ws arts : List Cell) :
    zipPairs (w :: ws) (a :: arts) = p :: zipPairs ws arts := by
  simp [zipPairs, List.zip_cons_cons, List.filterMap_cons, h]

theorem zipPairs_cons_none {w a : Cell} (h : candPair w a = none)
    (ws arts : List Cell) :
    zipPairs (w :: ws) (a :: arts) = zipPairs ws arts := by
  simp [zipPairs, List.zip_cons_cons, List.filterMap_cons, h]

theorem zipPairs_length_le_left (ws arts : List Cell) :
    (zipPairs ws arts).length ≤ ws.length := by
  calc (zipPairs ws arts).length ≤ (List.zip ws arts).length :=
        List.length_filterMap_le _ _
    _ ≤ ws.length := by rw [List.length_zip]; exact Nat.min_le_left _ _

theorem mem_zipPairs_iff (ws arts : List Cell) (p : WAPair) :
    p ∈ zipPairs ws arts ↔
      ∃ c ∈ List.zip ws arts, candPair c.1 c.2 = some p := by
  simp [zipPairs, List.mem_filterMap]

theorem zipPairs_replicate_none_left (k : Nat) (arts : List Cell) :
    zipPairs (List.replicate k none) arts = [] := by
  induction k generalizing arts with
  | zero => exact zipPairs_nil_left arts
  | succ n ih =>
    cases arts with
    | nil => exact zipPairs_nil_right _
    | cons a rest =>
      rw [List.replicate_succ, zipPairs_cons_none (candPair_none_left a)]
      exact ih rest

theorem zipPairs_replicate_none_right (ws : List Cell) (m : Nat) :
    zipPairs ws (List.replicate m none) = [] := by
  induction ws generalizing m with
  | nil => exact zipPairs_nil_left _
  | cons w rest ih =>
    cases m with
    | zero => exact zipPairs_nil_right _
    | succ n =>
      rw [List.replicate_succ, zipPairs_cons_none (candPair_none_right w)]
      exact ih n

theorem zipPairs_append_replicate (ws arts : List Cell) (k m : Nat) :
    zipPairs (ws ++ List.replicate k none) (arts ++ List.replicate m none) =
      zipPairs ws arts := by
  induction ws generalizing arts with
  | nil =>
    rw [List.nil_append, zipPairs_replicate_none_left, zipPairs_nil_left]
  | cons w wst ih =>
    cases arts with
    | nil =>
      rw [List.nil_append, zipPairs_replicate_none_right, zipPairs_nil_right]
    | cons a ast =>
      rw [List.cons_append, List.cons_append]
      cases hc : candPair w a with
      | none => rw [zipPairs_cons_none hc, zipPairs_cons_none hc, ih]
      | some p => rw [zipPairs_cons_some hc, zipPairs_cons_some hc, ih]

/-! ### Helper lemmas about the fallback scanner -/

theorem scanAux_blank_kill (b : List (List Cell)) :
    ∀ (s : Nat) (c : List (List Cell)), (∀ r ∈ b, rowEmpty r = true) →
      10 ≤ s + b.length → s ≤ 9 → scanAux (b ++ c) s = [] := by
  induction b with
  | nil =>
    intro s c _ h10 h9
    simp only [List.length_nil] at h10
    omega
  | cons r rest ih =>
    intro s c hb h10 h9
    have hr : rowEmpty r = true := hb r (List.mem_cons_self r rest)
    rw [List.cons_append]
    show scanAux (r :: (rest ++ c)) s = []
    rw [scanAux, if_pos hr]
    by_cases h1 : 10 ≤ s + 1
    · rw [if_pos h1]
    · rw [if_neg h1]
      exact ih (s + 1) c (fun x hx => hb x (List.mem_cons_of_mem r hx))
        (by simp only [List.length_cons] at h10; omega) (by omega)

theorem scanAux_cut_gap (xs : List (List Cell)) :
    ∀ (s : Nat) (b c : List (List Cell)), (∀ r ∈ b, rowEmpty r = true) →
      10 ≤ b.length → s ≤ 9 →
      scanAux (xs ++ b ++ c) s = scanAux xs s := by
  induction xs with
  | nil =>
    intro s b c hb hlen h9
    rw [List.nil_append, scanAux_blank_kill b s c hb (by omega) h9]
    rfl
  | cons r rest ih =>
    intro s b c hb hlen h9
    rw [List.cons_append, List.cons_append]
    by_cases hr : rowEmpty r = true
    · rw [scanAux, if_pos hr, scanAux, if_pos hr]
      by_cases h1 : 10 ≤ s + 1
      · rw [if_pos h1, if_pos h1]
      · rw [if_neg h1, if_neg h1]
        exact ih (s + 1) b c hb hlen (by omega)
    · have hr2 : rowEmpty r = false := by
        cases h : rowEmpty r with
        | false => rfl
        | true => exact absurd h hr
      rw [scanAux, if_neg (by rw [hr2]; exact Bool.false_ne_true),
        scanAux, if_neg (by rw [hr2]; exact Bool.false_ne_true)]
      rw [ih 0 b c hb hlen (by omega)]

theorem scanAux_no_long_run (xs : List (List Cell)) :
    ∀ s : Nat, hasLongBlankRun xs s = false →
      scanAux xs s = xs.filter (fun r => !rowEmpty r) := by
  induction xs with
  | nil => intro s _; rfl
  | cons r rest ih =>
    intro s h
    by_cases hr : rowEmpty r = true
    · rw [hasLongBlankRun, if_pos hr, Bool.or_eq_false_iff] at h
      have h1 : ¬(10 ≤ s + 1) := by
        intro hc
        simp only [decide_eq_false_iff_not] at h
        exact h.1 hc
      rw [scanAux, if_pos hr, if_neg h1, ih (s + 1) h.2, List.filter_cons,
        hr]
      rfl
    · have hr2 : rowEmpty r = false := by
        cases hx : rowEmpty r with
        | false => rfl
        | true => exact absurd hx hr
      rw [hasLongBlankRun, if_neg (by rw [hr2]; exact Bool.false_ne_true)] at h
      rw [scanAux, if_neg (by rw [hr2]; exact Bool.false_ne_true), ih 0 h,
        List.filter_cons, hr2]
      rfl

theorem padGrid_length (rows : List (List Cell)) :
    (padGrid rows).length = rows.length := by
  unfold padGrid
  exact List.length_map _ _

theorem build_horizontal_padGrid (rows : List (List Cell))
    (h2 : 2 ≤ rows.length) :
    build_horizontal_pairs (padGrid rows) =
      zipPairs (rows.getD 0 []) (rows.getD 1 []) := by
  cases rows with
  | nil => simp at h2
  | cons r0 rest =>
    cases rest with
    | nil => simp at h2
    | cons r1 rest2 =>
      unfold build_horizontal_pairs
      rw [if_neg (by rw [padGrid_length]; simp only [List.length_cons]; omega)]
      unfold padGrid get_row
      simp only [List.map_cons, List.getD_cons_zero, List.getD_cons_succ]
      exact zipPairs_append_replicate r0 r1 _ _

theorem filterMap_eq_map_of_some {α β : Type} (f : α → Option β) (g : α → β)
    (l : List α) (h : ∀ x ∈ l, f x = some (g x)) : l.filterMap f = l.map g := by
  induction l with
  | nil => rfl
  | cons x xs ih =>
    rw [List.filterMap_cons, h x (List.mem_cons_self x xs), List.map_cons,
      ih (fun y hy => h y (List.mem_cons_of_mem x hy))]

theorem build_vertical_eq_filterMap (g : Grid) :
    build_vertical_pairs g =
      g.filterMap (fun row => candPair (row.getD 0 none) (row.getD 1 none)) := by
  unfold build_vertical_pairs zipPairs get_col
  rw [List.zip_map', List.filterMap_map]
  rfl

theorem wfVRow_candPair {row : List Cell} (h : wfVRow row) :
    candPair (row.getD 0 none) (row.getD 1 none) = some (rowToPair row) :=
  candPair_of_valid h.2.1 h.2.2

theorem build_vertical_of_wf {g : Grid} (hwf : ∀ row ∈ g, wfVRow row) :
    build_vertical_pairs g = g.map rowToPair := by
  rw [build_vertical_eq_filterMap]
  exact filterMap_eq_map_of_some _ _ _ (fun row hr => wfVRow_candPair (hwf row hr))

theorem build_horizontal_length_le {g : Grid} (hwf : ∀ row ∈ g, wfVRow row) :
    (build_horizontal_pairs g).length ≤ (build_vertical_pairs g).length := by
  rw [build_vertical_of_wf hwf, List.length_map]
  unfold build_horizontal_pairs
  split_ifs with hlt
  · exact Nat.zero_le _
  · cases g with
    | nil => simp at hlt
    | cons r0 rest =>
      have hr0 : (get_row (r0 :: rest) 0).length = 2 :=
        (hwf r0 (List.mem_cons_self r0 rest)).1
      calc (zipPairs (get_row (r0 :: rest) 0) (get_row (r0 :: rest) 1)).length
          ≤ (get_row (r0 :: rest) 0).length := zipPairs_length_le_left _ _
        _ = 2 := hr0
        _ ≤ (r0 :: rest).length := Nat.le_of_not_lt hlt

theorem resolveChosen_auto (g : Grid)
    (hlen : (build_horizontal_pairs g).length ≤ (build_vertical_pairs g).length) :
    resolveChosen g "auto" = build_vertical_pairs g := by
  have h1 : pyLower "auto" = "auto" := by decide
  unfold resolveChosen
  rw [h1, if_neg (by decide : ¬("auto" = "vertical")),
    if_neg (by decide : ¬("auto" = "horizontal")), if_pos hlen]

theorem resolveChosen_auto_horizontal (g : Grid)
    (hlen : (build_vertical_pairs g).length < (build_horizontal_pairs g).length) :
    resolveChosen g "auto" = build_horizontal_pairs g := by
  have h1 : pyLower "auto" = "auto" := by decide
  unfold resolveChosen
  rw [h1, if_neg (by decide : ¬("auto" = "vertical")),
    if_neg (by decide : ¬("auto" = "horizontal")), if_neg (Nat.not_le_of_lt hlen)]

theorem load_not_found (rg : Option Grid) (path orient : String) :
    load_word_article_pairs false rg path orient =
      Except.error (LoadError.fileNotFound ("Excel file not found: " ++ path)) := rfl

theorem load_read_failed (path orient : String) :
    load_word_article_pairs true none path orient =
      Except.error LoadError.readFailed := rfl

theorem load_grid (g : Grid) (path orient : String) :
    load_word_article_pairs true (some g) path orient =
      if (resolveChosen g orient).isEmpty then Except.error LoadError.noValidPairs
      else Except.ok (resolveChosen g orient) := rfl

theorem isEmpty_eq_false_of_ne_nil {α : Type} {l : List α} (h : l ≠ []) :
    l.isEmpty = false := by
  cases l with
  | nil => exact absurd rfl h
  | cons x xs => rfl

theorem load_grid_ok {g : Grid} {orient : String} (path : String)
    (h : resolveChosen g orient ≠ []) :
    load_word_article_pairs true (some g) path orient =
      Except.ok (resolveChosen g orient) := by
  rw [load_grid, if_neg]
  simp [isEmpty_eq_false_of_ne_nil h]

/-! ### Helper lemmas about the quiz controller -/

theorem advanceDeck_counters (shuffle : List WAPair → List WAPair)
    (u : AppState) :
    (advanceDeck shuffle u).seen = u.seen ∧
      (advanceDeck shuffle u).score = u.score ∧
      (advanceDeck shuffle u).waiting_for_next = u.waiting_for_next := by
  unfold advanceDeck
  split_ifs <;> exact ⟨rfl, rfl, rfl⟩

theorem next_question_counts {shuffle : List WAPair → List WAPair}
    {s s2 : AppState} (h : next_question shuffle s = some s2) :
    s2.seen = s.seen + 1 ∧ s2.score = s.score ∧
      s2.waiting_for_next = false := by
  unfold next_question at h
  simp only [] at h
  obtain ⟨hs, hsc, hw⟩ :=
    advanceDeck_counters shuffle { s with waiting_for_next := false }
  split_ifs at h with hc
  cases h
  refine ⟨?_, ?_, ?_⟩ <;> simp [hs, hsc, hw]

theorem next_question_step (shuffle : List WAPair → List WAPair)
    {s : AppState} (hidx : s.idx < s.deck.length) :
    next_question shuffle s =
      some { s with waiting_for_next := false,
                    current := s.deck.getD s.idx ("", ""),
                    idx := s.idx + 1, seen := s.seen + 1 } := by
  have hadv : advanceDeck shuffle { s with waiting_for_next := false } =
      { s with waiting_for_next := false } := by
    unfold advanceDeck
    rw [if_neg (Nat.not_le_of_lt hidx)]
  unfold next_question
  simp only [hadv]
  rw [if_neg (Nat.not_le_of_lt hidx)]

theorem next_question_reshuffle {shuffle : List WAPair → List WAPair}
    {s : AppState} (hshuf : (shuffle s.pairs).length = s.pairs.length)
    (hidx : s.deck.length ≤ s.idx) (hp : s.pairs ≠ []) :
    next_question shuffle s =
      some { s with pairs := shuffle s.pairs, deck := shuffle s.pairs,
                    waiting_for_next := false,
                    current := (shuffle s.pairs).getD 0 ("", ""),
                    idx := 1, seen := s.seen + 1 } := by
  have hadv : advanceDeck shuffle { s with waiting_for_next := false } =
      { s with waiting_for_next := false, pairs := shuffle s.pairs,
               deck := shuffle s.pairs, idx := 0 } := by
    unfold advanceDeck
    rw [if_pos hidx]
  have hpos : 0 < (shuffle s.pairs).length := by
    rw [hshuf]
    exact List.length_pos.mpr hp
  unfold next_question
  simp only [hadv]
  rw [if_neg (Nat.not_le_of_lt hpos)]

theorem drawN_in_bounds (shuffle : List WAPair → List WAPair) (k : Nat) :
    ∀ s : AppState, s.idx + k ≤ s.deck.length →
      ∃ s1, drawN shuffle k s = some s1 ∧ s1.idx = s.idx + k ∧
        s1.deck = s.deck ∧ s1.pairs = s.pairs ∧ s1.seen = s.seen + k := by
  induction k with
  | zero => exact fun s _ => ⟨s, rfl, rfl, rfl, rfl, rfl⟩
  | succ n ih =>
    intro s h
    have hidx : s.idx < s.deck.length := by omega
    have hstep := next_question_step shuffle hidx
    obtain ⟨s1, hd, h1, h2, h3, h4⟩ := ih
      { s with waiting_for_next := false,
               current := s.deck.getD s.idx ("", ""),
               idx := s.idx + 1, seen := s.seen + 1 }
      (by show s.idx + 1 + n ≤ s.deck.length; omega)
    refine ⟨s1, ?_, by simp only [] at h1; omega, by simpa using h2,
      by simpa using h3, by simp only [] at h4; omega⟩
    show drawN shuffle (n + 1) s = some s1
    unfold drawN
    rw [hstep]
    exact hd

/-! ### Claim theorems -/

/-- C1: for every well-formed vertical sheet (each row exactly the two
columns word and article, with a non-empty trimmed word and a valid
article, and at least one row), the loader with orientation `auto` returns
exactly one cleaned pair per row, in the sheet's top-to-bottom order. -/
theorem C1_vertical_auto_preserves_rows (g : Grid) (path : String)
    (hne : g ≠ []) (hwf : ∀ row ∈ g, wfVRow row) :
    load_word_article_pairs true (some g) path "auto" =
        Except.ok (g.map rowToPair) ∧
      (g.map rowToPair).length = g.length := by
  have hv := build_vertical_of_wf hwf
  have hlen := build_horizontal_length_le hwf
  have hchosen : resolveChosen g "auto" = g.map rowToPair := by
    rw [resolveChosen_auto g hlen, hv]
  have hnil : resolveChosen g "auto" ≠ [] := by
    rw [hchosen]
    cases g with
    | nil => exact absurd rfl hne
    | cons r rest => simp
  refine ⟨?_, List.length_map g rowToPair⟩
  rw [load_grid_ok path hnil, hchosen]

/-- Witness for C1 at the spec's own example sheet. -/
theorem C1_witness :
    load_word_article_pairs true
        (some [[some "Haus", some "das"], [some "Mann", some "der"],
          [some "Frau", some "die"]]) "words.xlsx" "auto" =
      Except.ok [("Haus", "das"), ("Mann", "der"), ("Frau", "die")] := by
  have h := (C1_vertical_auto_preserves_rows
    [[some "Haus", some "das"], [some "Mann", some "der"], [some "Frau", some "die"]]
    "words.xlsx" (by decide) (by decide)).1
  rw [h]
  exact congrArg Except.ok (by decide)

/-- C3: with orientation `auto`, both candidate lists non-empty and of
equal length gives the vertical list, and a strictly longer candidate list
is always the one returned. -/
theorem C3_auto_prefers_vertical_on_tie (g : Grid) (path : String) :
    (build_vertical_pairs g ≠ [] → build_horizontal_pairs g ≠ [] →
      (build_vertical_pairs g).length = (build_horizontal_pairs g).length →
      load_word_article_pairs true (some g) path "auto" =
        Except.ok (build_vertical_pairs g)) ∧
    ((build_horizontal_pairs g).length < (build_vertical_pairs g).length →
      load_word_article_pairs true (some g) path "auto" =
        Except.ok (build_vertical_pairs g)) ∧
    ((build_vertical_pairs g).length < (build_horizontal_pairs g).length →
      load_word_article_pairs true (some g) path "auto" =
        Except.ok (build_horizontal_pairs g)) := by
  refine ⟨?_, ?_, ?_⟩
  · intro hv _ heq
    have hc := resolveChosen_auto g (Nat.le_of_eq heq.symm)
    rw [load_grid_ok path (hc ▸ hv), hc]
  · intro hlt
    have hc := resolveChosen_auto g (Nat.le_of_lt hlt)
    have hv : build_vertical_pairs g ≠ [] := by
      intro hnil
      rw [hnil] at hlt
      exact Nat.not_lt_zero _ (Nat.lt_of_lt_of_le hlt (Nat.le_refl _))
    rw [load_grid_ok path (hc ▸ hv), hc]
  · intro hlt
    have hc := resolveChosen_auto_horizontal g hlt
    have hh : build_horizontal_pairs g ≠ [] := by
      intro hnil
      rw [hnil] at hlt
      exact Nat.not_lt_zero _ hlt
    rw [load_grid_ok path (hc ▸ hh), hc]

/-- Witness for C3: a 2x2 grid where both interpretations yield two valid
pairs; auto returns the vertical interpretation. -/
theorem C3_witness :
    load_word_article_pairs true
        (some [[some "Haus", some "das"], [some "der", some "der"]])
        "words.xlsx" "auto" =
      Except.ok [("Haus", "das"), ("der", "der")] := by
  have h := (C3_auto_prefers_vertical_on_tie
    [[some "Haus", some "das"], [some "der", some "der"]] "words.xlsx").1
    (by decide) (by decide) (by decide)
  rw [h]
  exact congrArg Except.ok (by decide)

/-- C4: a candidate cell pair is kept iff, after trimming both values and
lowercasing the article, the word is non-empty and the article is exactly
der, die or das; both builders keep exactly those candidates out of their
zipped cell pairs, and invalid candidates — such as article "den", or a
whitespace-only word with a valid article — yield no pair and no error. -/
theorem C4_candidate_kept_iff_valid (g : Grid) (w a : Cell) (p : WAPair) :
    (candPair w a = some p ↔
      clean w ≠ "" ∧
        (pyLower (clean a) = "der" ∨ pyLower (clean a) = "die" ∨
          pyLower (clean a) = "das") ∧
        p = (clean w, pyLower (clean a))) ∧
    (p ∈ build_vertical_pairs g ↔
      ∃ c ∈ List.zip (get_col g 0) (get_col g 1), candPair c.1 c.2 = some p) ∧
    (p ∈ build_horizontal_pairs g ↔
      ∃ c ∈ List.zip (get_row g 0) (get_row g 1), candPair c.1 c.2 = some p) ∧
    candPair (some "Hund") (some "den") = none ∧
    candPair (some "   ") (some "der") = none := by
  refine ⟨candPair_eq_some_iff w a p, mem_zipPairs_iff _ _ p, ?_, by decide,
    by decide⟩
  by_cases hlt : g.length < 2
  · have hb : build_horizontal_pairs g = [] := by
      unfold build_horizontal_pairs
      rw [if_pos hlt]
    have hz : get_row g 1 = [] := by
      cases g with
      | nil => rfl
      | cons r rest =>
        cases rest with
        | nil => rfl
        | cons r2 rest2 => simp only [List.length_cons] at hlt; omega
    rw [hb, hz]
    simp
  · have hb : build_horizontal_pairs g =
        zipPairs (get_row g 0) (get_row g 1) := by
      unfold build_horizontal_pairs
      rw [if_neg hlt]
    rw [hb]
    exact mem_zipPairs_iff _ _ p

/-- Witness for C4: the valid candidate (" Haus ", " DAS ") is kept as
("Haus", "das"). -/
theorem C4_witness :
    candPair (some " Haus ") (some " DAS ") = some ("Haus", "das") :=
  (C4_candidate_kept_iff_valid [] (some " Haus ") (some " DAS ")
    ("Haus", "das")).1.mpr ⟨by decide, Or.inr (Or.inr (by decide)), by decide⟩

/-- C5: the fallback scanner stops at 10 consecutive fully-empty rows:
whatever data follows a gap of 10 or more fully-empty rows contributes
nothing, the accumulated rows being exactly those of the prefix before
the gap. -/
theorem C5_scan_stops_at_ten_blank_rows (a b c : List (List Cell))
    (hb : ∀ r ∈ b, rowEmpty r = true) (hlen : 10 ≤ b.length) :
    scanRows (a ++ b ++ c) = scanRows a := by
  unfold scanRows
  exact scanAux_cut_gap a 0 b c hb hlen (by omega)

/-- Witness for C5: one data row, a 10-blank-row gap, then another data
row; the scanner keeps only the first data row. -/
theorem C5_witness :
    scanRows ([[some "Haus", some "das"]] ++ List.replicate 10 [] ++
        [[some "Mann", some "der"]]) =
      [[some "Haus", some "das"]] := by
  have h := C5_scan_stops_at_ten_blank_rows [[some "Haus", some "das"]]
    (List.replicate 10 []) [[some "Mann", some "der"]] (by decide) (by decide)
  rw [h]
  decide

/-- C10: when the sheet has no run of 10 consecutive fully-empty rows, the
scanner's accumulated grid is exactly the sheet's non-empty rows in order
(every fully-empty row is omitted, including those between data rows), and
the horizontal interpretation of the padded grid pairs the first two
physically non-empty rows. -/
theorem C10_scan_compacts_nonempty_rows (sheet : List (List Cell))
    (h : hasLongBlankRun sheet 0 = false) :
    scanRows sheet = sheet.filter (fun r => !rowEmpty r) ∧
      (2 ≤ (sheet.filter (fun r => !rowEmpty r)).length →
        build_horizontal_pairs (padGrid (scanRows sheet)) =
          zipPairs ((sheet.filter (fun r => !rowEmpty r)).getD 0 [])
            ((sheet.filter (fun r => !rowEmpty r)).getD 1 [])) := by
  have h1 : scanRows sheet = sheet.filter (fun r => !rowEmpty r) :=
    scanAux_no_long_run sheet 0 h
  refine ⟨h1, fun h2 => ?_⟩
  rw [h1]
  exact build_horizontal_padGrid _ h2

/-- Witness for C10: two data rows separated by a 3-blank-row gap are
compacted to adjacent rows and paired by the horizontal interpretation. -/
theorem C10_witness :
    scanRows [[some "Haus", some "Mann"], [], [], [],
        [some "das", some "der"]] =
      [[some "Haus", some "Mann"], [some "das", some "der"]] ∧
    build_horizontal_pairs (padGrid (scanRows [[some "Haus", some "Mann"],
        [], [], [], [some "das", some "der"]])) =
      [("Haus", "das"), ("Mann", "der")] := by
  have h := C10_scan_compacts_nonempty_rows
    [[some "Haus", some "Mann"], [], [], [], [some "das", some "der"]]
    (by decide)
  refine ⟨h.1.trans (by decide), (h.2 (by decide)).trans (by decide)⟩

/-- C2 (counterexample): when the source file exists but both reading
strategies fail, the loader raises `RuntimeError` — a failure that is
neither `FileNotFoundError` nor `NoValidPairsError` and not a success,
refuting the claim that those two are the loader's only failure modes. -/
theorem C2_counterexample :
    isFileNotFoundErr (load_word_article_pairs true none "words.xlsx" "auto") =
        false ∧
      isNoValidPairsErr (load_word_article_pairs true none "words.xlsx" "auto") =
        false ∧
      loadOk (load_word_article_pairs true none "words.xlsx" "auto") = false := by
  decide

/-- C2 (amended): the loader fails with `FileNotFoundError` carrying the
given path in its message when the file does not exist; with
`RuntimeError` when the file exists but both reading strategies fail; and
with `NoValidPairsError` when the resolved orientation yields no valid
pairs; otherwise it succeeds, and no other failure mode exists. -/
theorem C2_loader_failure_modes (fe : Bool) (rg : Option Grid)
    (path orient : String) :
    (fe = false →
      load_word_article_pairs fe rg path orient =
        Except.error
          (LoadError.fileNotFound ("Excel file not found: " ++ path))) ∧
    (rg = none →
      load_word_article_pairs true rg path orient =
        Except.error LoadError.readFailed) ∧
    (∀ g, rg = some g → resolveChosen g orient = [] →
      load_word_article_pairs true rg path orient =
        Except.error LoadError.noValidPairs) ∧
    (∀ g, rg = some g → resolveChosen g orient ≠ [] →
      load_word_article_pairs true rg path orient =
        Except.ok (resolveChosen g orient)) ∧
    (∀ e, load_word_article_pairs fe rg path orient = Except.error e →
      e = LoadError.fileNotFound ("Excel file not found: " ++ path) ∨
        e = LoadError.readFailed ∨ e = LoadError.noValidPairs) := by
  refine ⟨?_, ?_, ?_, ?_, ?_⟩
  · intro h
    subst h
    exact load_not_found rg path orient
  · intro h
    subst h
    exact load_read_failed path orient
  · intro g hg hres
    subst hg
    rw [load_grid, if_pos (by simp [hres])]
  · intro g hg hres
    subst hg
    exact load_grid_ok path hres
  · intro e he
    cases fe with
    | false =>
      rw [load_not_found] at he
      injection he with h2
      exact Or.inl h2.symm
    | true =>
      cases rg with
      | none =>
        rw [load_read_failed] at he
        injection he with h2
        exact Or.inr (Or.inl h2.symm)
      | some g =>
        rw [load_grid] at he
        split_ifs at he with hc
        injection he with h2
        exact Or.inr (Or.inr h2.symm)

/-- Witness for the amended C2: a missing file yields `FileNotFoundError`
with the path in the message. -/
theorem C2_witness :
    load_word_article_pairs false none "words.xlsx" "auto" =
      Except.error (LoadError.fileNotFound "Excel file not found: words.xlsx") := by
  have h := (C2_loader_failure_modes false none "words.xlsx" "auto").1 rfl
  exact h

/-- C6 (counterexample): from a Running state with seen = 5, an incorrect
guess enters AwaitingAcknowledgment with seen still 5: `seen` is not
incremented at submission time (it is incremented when a question is
drawn), refuting the claim's incorrect-guess clause. -/
theorem C6_counterexample :
    (submit "der" exRun).waiting_for_next = true ∧
      (submit "der" exRun).seen = exRun.seen ∧
      ¬((submit "der" exRun).seen = exRun.seen + 1) := by
  decide

/-- C6 (amended): in a Running state, a correct submit increments score by
1 and leaves seen unchanged, and the scheduled auto-advance then
increments seen by 1; an incorrect submit leaves both score and seen
unchanged and enters AwaitingAcknowledgment, which persists under any
further submit, and the acknowledging `next_question` then increments seen
by 1 leaving score unchanged. -/
theorem C6_submit_score_seen (shuffle : List WAPair → List WAPair)
    (s : AppState) (guess : String) (hw : s.waiting_for_next = false) :
    (guess = s.current.2 →
      submit guess s = { s with score := s.score + 1 } ∧
      ∀ s2, next_question shuffle (submit guess s) = some s2 →
        s2.score = s.score + 1 ∧ s2.seen = s.seen + 1) ∧
    (guess ≠ s.current.2 →
      submit guess s = { s with waiting_for_next := true } ∧
      (∀ g2, submit g2 (submit guess s) = submit guess s) ∧
      ∀ s2, next_question shuffle (submit guess s) = some s2 →
        s2.score = s.score ∧ s2.seen = s.seen + 1 ∧
          s2.waiting_for_next = false) := by
  have hnw : ¬(s.waiting_for_next = true) := by
    rw [hw]
    exact Bool.false_ne_true
  constructor
  · intro hg
    have h1 : submit guess s = { s with score := s.score + 1 } := by
      unfold submit
      rw [if_neg hnw, if_pos hg]
    refine ⟨h1, fun s2 h2 => ?_⟩
    rw [h1] at h2
    obtain ⟨ha, hb, _⟩ := next_question_counts h2
    exact ⟨hb, ha⟩
  · intro hg
    have h1 : submit guess s = { s with waiting_for_next := true } := by
      unfold submit
      rw [if_neg hnw, if_neg hg]
    refine ⟨h1, fun g2 => ?_, fun s2 h2 => ?_⟩
    · rw [h1]
      show submit g2 { s with waiting_for_next := true } =
        { s with waiting_for_next := true }
      unfold submit
      rw [if_pos rfl]
    · rw [h1] at h2
      obtain ⟨ha, hb, hc⟩ := next_question_counts h2
      exact ⟨hb, ha, hc⟩

/-- Witness for the amended C6 at a concrete Running state with the
correct guess "das". -/
theorem C6_witness :
    submit "das" exRun = { exRun with score := exRun.score + 1 } ∧
      (submit "das" exRun).seen = exRun.seen :=
  ⟨((C6_submit_score_seen id exRun "das" rfl).1 rfl).1,
    by rw [((C6_submit_score_seen id exRun "das" rfl).1 rfl).1]⟩

/-- C7: while AwaitingAcknowledgment, `submit` is a no-op for any guessed
article: the whole state — score, seen, the current pair and the waiting
flag — is returned unchanged. -/
theorem C7_submit_ignored_while_waiting (s : AppState) (guess : String)
    (hw : s.waiting_for_next = true) : submit guess s = s := by
  unfold submit
  rw [if_pos hw]

/-- Witness for C7 at a concrete AwaitingAcknowledgment state. -/
theorem C7_witness : submit "der" exWait = exWait :=
  C7_submit_ignored_while_waiting exWait "der" rfl

/-- C8: with a length-preserving shuffle, a non-empty pair set and the
deck invariant (deck length = pair-set length, pointer ≤ deck length),
`next_question` never indexes out of range and preserves the invariant;
from pointer 0, exactly len(pairs) draws leave the pointer at len(pairs)
with the deck untouched, and the following draw reshuffles the full pair
set into a new deck and resets the pointer to 0 before indexing, ending
at pointer 1. -/
theorem C8_deck_cycles_in_range (shuffle : List WAPair → List WAPair)
    (hshuf : ∀ l, (shuffle l).length = l.length) (s : AppState)
    (hp : s.pairs ≠ []) (hd : s.deck.length = s.pairs.length) :
    (s.idx ≤ s.deck.length →
      next_question shuffle s ≠ none ∧
      ∀ s2, next_question shuffle s = some s2 →
        s2.pairs.length = s.pairs.length ∧
          s2.deck.length = s2.pairs.length ∧ s2.idx ≤ s2.deck.length) ∧
    (s.idx = 0 →
      drawN shuffle s.pairs.length s ≠ none ∧
      ∀ s1, drawN shuffle s.pairs.length s = some s1 →
        s1.idx = s.pairs.length ∧ s1.deck = s.deck ∧ s1.pairs = s.pairs ∧
          next_question shuffle s1 ≠ none ∧
          ∀ s2, next_question shuffle s1 = some s2 →
            s2.deck = shuffle s.pairs ∧ s2.idx = 1) := by
  have hpos : 0 < s.pairs.length := List.length_pos.mpr hp
  constructor
  · intro hle
    rcases Nat.lt_or_ge s.idx s.deck.length with hlt | hge
    · rw [next_question_step shuffle hlt]
      refine ⟨by simp, fun s2 h2 => ?_⟩
      cases h2
      refine ⟨rfl, hd, ?_⟩
      show s.idx + 1 ≤ s.deck.length
      omega
    · rw [next_question_reshuffle (hshuf s.pairs) hge hp]
      refine ⟨by simp, fun s2 h2 => ?_⟩
      cases h2
      refine ⟨hshuf s.pairs, rfl, ?_⟩
      show 1 ≤ (shuffle s.pairs).length
      rw [hshuf s.pairs]
      omega
  · intro h0
    obtain ⟨s1x, hdx, h1, h2, h3, h4⟩ :=
      drawN_in_bounds shuffle s.pairs.length s
        (by rw [h0, hd]; omega)
    refine ⟨by rw [hdx]; simp, fun s1 hs1 => ?_⟩
    rw [hdx] at hs1
    cases Option.some_inj.mp hs1
    have hidx1 : s1x.idx = s.pairs.length := by rw [h1, h0]; omega
    have hge : s1x.deck.length ≤ s1x.idx := by rw [h2, hidx1, hd]
    have hres := next_question_reshuffle (s := s1x)
      (by rw [h3]; exact hshuf s.pairs) hge (by rw [h3]; exact hp)
    rw [hres]
    refine ⟨hidx1, h2, h3, by simp, fun s2 hs2 => ?_⟩
    cases hs2
    constructor
    · show shuffle s1x.pairs = shuffle s.pairs
      rw [h3]
    · rfl

/-- Witness for C8: with the identity shuffle and a fresh two-pair deck,
two draws and a subsequent (reshuffling) draw all succeed. -/
theorem C8_witness :
    drawN id 2 exStart ≠ none ∧ next_question id exStart ≠ none := by
  have h := C8_deck_cycles_in_range id (fun l => rfl) exStart (by decide)
    (by decide)
  exact ⟨(h.2 rfl).1, (h.1 (by decide)).1⟩

/-- C9: the displayed accuracy is 0 when seen = 0 and otherwise
`round(score * 100 / seen)` — Python 3 round (half to even) on the exact
ratio: the integer quotient or its successor according to whether the
remainder is below or above half of `seen`, with a half-way tie rounding
to an even percentage. -/
theorem C9_accuracy_rounding (score seen : Nat) :
    (seen = 0 → accuracy score seen = 0) ∧
    (seen ≠ 0 → accuracy score seen = pyRound (score * 100) seen) ∧
    (seen ≠ 0 →
      (accuracy score seen = score * 100 / seen ∧
        2 * (score * 100 % seen) ≤ seen) ∨
      (accuracy score seen = score * 100 / seen + 1 ∧
        seen ≤ 2 * (score * 100 % seen))) ∧
    (seen ≠ 0 → 2 * (score * 100 % seen) = seen →
      accuracy score seen % 2 = 0) := by
  refine ⟨fun h => by simp [accuracy, h], fun h => by simp [accuracy, h],
    fun h => ?_, fun h htie => ?_⟩
  · have hacc : accuracy score seen = pyRound (score * 100) seen := by
      simp [accuracy, h]
    rw [hacc]
    unfold pyRound
    split_ifs with h1 h2 h3
    · exact Or.inl ⟨rfl, by omega⟩
    · exact Or.inr ⟨rfl, by omega⟩
    · exact Or.inl ⟨rfl, by omega⟩
    · exact Or.inr ⟨rfl, by omega⟩
  · have hacc : accuracy score seen = pyRound (score * 100) seen := by
      simp [accuracy, h]
    rw [hacc]
    unfold pyRound
    split_ifs with h1 h2 h3 <;> omega

/-- Witness for C9: 1 of 8 is a half-way tie (12.5%) and rounds to the
even 12; 0 of 5 is 0; 2 of 3 rounds up to 67. -/
theorem C9_witness :
    accuracy 1 8 % 2 = 0 ∧ accuracy 0 5 = 0 ∧ accuracy 2 3 = 67 :=
  ⟨(C9_accuracy_rounding 1 8).2.2.2 (by decide) (by decide), by decide,
    by decide⟩

end DerDieDas
